import Mathlib

/- Verification development for the frogiverse message-archive CLI.

   The embedding covers:
   - `store-lock.js`: `lockPayload`, `readStoreLock`, `acquireStoreLock`
     and the release closure it returns, over an explicit filesystem state;
   - `cli.js`: `parseDuration`, the `sync` command's flag parsing and mode
     selection (`runSync`), the idle-exit polling loop (`waitForIdle`),
     the `doctor` command's lock report, and `writeError` / `main`'s
     fatal-error path.

   JavaScript strings are modelled as Lean `String`s, with the character
   level operations (`trim`, regex matching, digit decoding) carried out
   on `List Char` so that every definition evaluates by kernel reduction.
   The filesystem is a flat map from paths to file contents; the only
   filesystem errors modelled are the two the source distinguishes
   (`EEXIST` on exclusive create, `ENOENT` on read/unlink of a missing
   file).  Node `fs` calls are embedded as explicit state passing. -/

/-! ## JavaScript string primitives -/

/-- Embedding of `String.prototype.trim`: drop leading and trailing
whitespace characters. -/
def trimChars (cs : List Char) : List Char :=
  ((cs.dropWhile Char.isWhitespace).reverse.dropWhile Char.isWhitespace).reverse

/-- String-level form of `trimChars`, the model of `value.trim()`. -/
def jsTrim (s : String) : String :=
  String.mk (trimChars s.data)

/-- Decimal value of a digit string; the model of JavaScript
`Number(...)` applied to a string of decimal digits. -/
def digitsToNat (cs : List Char) : Nat :=
  cs.foldl (fun acc c => acc * 10 + (c.toNat - 48)) 0

/-- Decimal digit characters of `n`, most significant first, driven by a
fuel argument (`n` itself suffices as fuel since `n / 10` shrinks). -/
def decDigitsAux : Nat → Nat → List Char
  | 0, _ => []
  | fuel + 1, n =>
    if n = 0 then []
    else decDigitsAux fuel (n / 10) ++ [Char.ofNat (48 + n % 10)]

/-- Decimal rendering of a natural number, the model of
`JSON.stringify` applied to a non-negative integer. -/
def natToDecChars (n : Nat) : List Char :=
  if n = 0 then ['0'] else decDigitsAux n n

/-! ## Filesystem model -/

/-- The two filesystem error codes the source distinguishes
(`error.code === 'EEXIST'` and `error.code === 'ENOENT'`). -/
inductive FsError where
  | EEXIST
  | ENOENT
deriving DecidableEq, Repr

/-- A flat filesystem: an association list from absolute paths to file
contents.  Directories are not modelled (`fs.mkdirSync(storeDir,
{recursive: true})` touches no file the lock code reads). -/
structure FS where
  files : List (String × String)
deriving DecidableEq, Repr

/-- Content of the file at `p`, if present. -/
def FS.read (fs : FS) (p : String) : Option String :=
  (fs.files.find? (fun e => decide (e.1 = p))).map Prod.snd

/-- Create or overwrite the file at `p`. -/
def FS.insert (fs : FS) (p c : String) : FS :=
  ⟨(p, c) :: fs.files⟩

/-- Remove every entry for path `p`. -/
def FS.erase (fs : FS) (p : String) : FS :=
  ⟨fs.files.filter (fun e => !(decide (e.1 = p)))⟩

/-- Model of `fs.openSync(p, 'wx')` followed by `writeFileSync`/`closeSync`:
exclusive create, failing with `EEXIST` when the file already exists. -/
def FS.openWxWrite (fs : FS) (p c : String) : Except FsError FS :=
  match fs.read p with
  | some _ => .error .EEXIST
  | none => .ok (fs.insert p c)

/-- Model of `fs.unlinkSync(p)`: remove the file, failing with `ENOENT`
when it is absent. -/
def FS.unlinkSync (fs : FS) (p : String) : Except FsError FS :=
  match fs.read p with
  | some _ => .ok (fs.erase p)
  | none => .error .ENOENT

/-- Model of `fs.readFileSync(p, 'utf8')` as an explicit state-passing
operation: returns the contents or `ENOENT`, and the (unchanged)
filesystem that results from performing the call. -/
def FS.readFileSync (fs : FS) (p : String) : Except FsError String × FS :=
  (match fs.read p with
   | some c => .ok c
   | none => .error .ENOENT,
   fs)

/-! ## store-lock.js -/

/-- Model of `path.join(storeDir, 'LOCK')`. -/
def lockPath (storeDir : String) : String :=
  storeDir ++ "/LOCK"

/-- Source `lockPayload()`: `JSON.stringify({ pid: process.pid,
startedAt: new Date().toISOString() })`, with the acquiring process's
pid and timestamp passed in explicitly. -/
def lockPayload (pid : Nat) (startedAt : String) : String :=
  "\x7b\"pid\":" ++ String.mk (natToDecChars pid) ++ ",\"startedAt\":\"" ++
    startedAt ++ "\"\x7d"

/-- Result shape of `readStoreLock`: `{ exists, path, info }`.  The JS
field `exists` is a Lean keyword, hence the trailing underscore. -/
structure LockInspect where
  exists_ : Bool
  path : String
  info : Option String
deriving DecidableEq, Repr

/-- Source `readStoreLock(storeDir)`: read the marker file, reporting
absence on `ENOENT` and the trimmed raw contents otherwise.  The
filesystem state is threaded to witness that only reads occur. -/
def readStoreLock (storeDir : String) (fs : FS) : LockInspect × FS :=
  let p := lockPath storeDir
  match FS.readFileSync fs p with
  | (.ok raw, fs') => ({ exists_ := true, path := p, info := some (jsTrim raw) }, fs')
  | (.error _, fs') => ({ exists_ := false, path := p, info := none }, fs')

/-- Failure modes of `acquireStoreLock`: the `LockHeldError` of the spec
taxonomy (the thrown `Error('Store is locked by another process…')`),
plus the re-throw of any other filesystem failure. -/
inductive LockError where
  | lockHeld (message : String)
  | fsRaise (e : FsError)
deriving DecidableEq, Repr

/-- Message carried by a `LockError`, the model of `error.message`. -/
def LockError.message : LockError → String
  | .lockHeld m => m
  | .fsRaise .EEXIST => "EEXIST"
  | .fsRaise .ENOENT => "ENOENT"

/-- Source `acquireStoreLock(storeDir)` up to returning the release
closure: exclusive-create the marker with the owner payload; on
`EEXIST` read the existing marker and throw the lock-held error,
appending the marker contents when they are non-empty (the JS
truthiness test `info.info ? … : ''`). -/
def acquireStoreLock (storeDir : String) (pid : Nat) (startedAt : String)
    (fs : FS) : Except LockError FS :=
  let p := lockPath storeDir
  match fs.openWxWrite p (lockPayload pid startedAt) with
  | .ok fs' => .ok fs'
  | .error .EEXIST =>
    let info := (readStoreLock storeDir fs).1
    let details :=
      match info.info with
      | some s => if s = "" then "" else " (" ++ s ++ ")"
      | none => ""
    .error (.lockHeld ("Store is locked by another process" ++ details))
  | .error e => .error (.fsRaise e)

/-- The release closure returned by `acquireStoreLock`, with its captured
mutable `released` flag made explicit.  Sets `released` before
unlinking, ignores `ENOENT`, and re-throws any other unlink failure. -/
def releaseStoreLock (p : String) (released : Bool) (fs : FS) :
    Except FsError (Bool × FS) :=
  if released then .ok (released, fs)
  else
    match fs.unlinkSync p with
    | .ok fs' => .ok (true, fs')
    | .error .ENOENT => .ok (true, fs)
    | .error e => .error e

/-- Pid recorded in a marker payload: the digit run following the
7-character prefix `{"pid":`. -/
def lockRecordPid (s : String) : Nat :=
  digitsToNat ((s.data.drop 7).takeWhile Char.isDigit)

/-- Timestamp recorded in a marker payload: the characters between
`,"startedAt":"` (14 characters after the pid digits) and the closing
quote. -/
def lockRecordStartedAt (s : String) : String :=
  String.mk ((((s.data.drop 7).dropWhile Char.isDigit).drop 14).takeWhile
    (fun c => !(decide (c = '"'))))

/-! ## cli.js: parseDuration -/

/-- Source `parseDuration(value)`.  A missing value (the JS non-string
case) is `none`; a blank string yields `.ok none`; otherwise the trimmed
input must match `^(\d+)(ms|s|m|h)?$` case-insensitively (modelled as a
maximal digit run followed by exactly one of the allowed suffixes), a
missing suffix defaults to seconds, and any other input throws
`Invalid duration`. -/
def parseDuration (value : Option String) : Except String (Option Nat) :=
  match value with
  | none => .ok none
  | some v =>
    if trimChars v.data = [] then .ok none
    else
      let raw := trimChars v.data
      let ds := raw.takeWhile Char.isDigit
      let us := (raw.dropWhile Char.isDigit).map Char.toLower
      if ds = [] then .error ("Invalid duration: " ++ v)
      else
        let amount := digitsToNat ds
        let unit := if us = [] then ['s'] else us
        if unit = ['m', 's'] then .ok (some amount)
        else if unit = ['s'] then .ok (some (amount * 1000))
        else if unit = ['m'] then .ok (some (amount * 60 * 1000))
        else if unit = ['h'] then .ok (some (amount * 60 * 60 * 1000))
        else .error ("Invalid duration: " ++ v)

/-- The duration grammar's suffix cases together with the millisecond
factor each one denotes: no suffix or `s` means seconds, `ms`
milliseconds, `m` minutes, `h` hours (all case-insensitive). -/
def suffixSpec (us : List Char) (k : Nat) : Prop :=
  (us.map Char.toLower = [] ∧ k = 1000)
  ∨ (us.map Char.toLower = ['m', 's'] ∧ k = 1)
  ∨ (us.map Char.toLower = ['s'] ∧ k = 1000)
  ∨ (us.map Char.toLower = ['m'] ∧ k = 60000)
  ∨ (us.map Char.toLower = ['h'] ∧ k = 3600000)

/-- The lower-cased suffixes accepted by the duration grammar. -/
def durationSuffixes : List (List Char) := [[], ['m', 's'], ['s'], ['m'], ['h']]

/-- The intended duration grammar as stated: a non-empty run of decimal
digits followed by an optional case-insensitive unit suffix. -/
def isValidDuration (cs : List Char) : Prop :=
  ∃ ds us, cs = ds ++ us ∧ ds ≠ [] ∧ (∀ c ∈ ds, c.isDigit = true) ∧
    us.map Char.toLower ∈ durationSuffixes

/-! ## cli.js: sync command flags and mode selection -/

/-- Split a character list at every occurrence of `sep`, the model of
`String.prototype.split`. -/
def splitOnChar (sep : Char) : List Char → List (List Char)
  | [] => [[]]
  | c :: rest =>
    match splitOnChar sep rest with
    | [] => [[]]
    | h :: t => if c = sep then [] :: h :: t else (c :: h) :: t

/-- Flags recognised by `runSync`'s `parseFlags` call:
`{ once: boolean, follow: boolean, 'idle-exit': string }`. -/
structure SyncFlags where
  once : Bool := false
  follow : Bool := false
  idleExit : Option String := none
deriving DecidableEq, Repr

/-- Worker for `parseSyncFlags`; `rest` collects the positional and
unrecognised arguments in reverse. -/
def parseSyncFlagsAux : List String → SyncFlags → List String →
    Except String (SyncFlags × List String)
  | [], flags, rest => .ok (flags, rest.reverse)
  | arg :: more, flags, rest =>
    match arg.data with
    | '-' :: '-' :: keyRest =>
      let parts := splitOnChar '=' keyRest
      let key := String.mk (parts.headD [])
      let rawValue := (parts.get? 1).map String.mk
      if key = "once" then parseSyncFlagsAux more { flags with once := true } rest
      else if key = "follow" then
        parseSyncFlagsAux more { flags with follow := true } rest
      else if key = "idle-exit" then
        match rawValue with
        | some v => parseSyncFlagsAux more { flags with idleExit := some v } rest
        | none =>
          match more with
          | v :: more2 => parseSyncFlagsAux more2 { flags with idleExit := some v } rest
          | [] => .error "--idle-exit requires a value"
      else parseSyncFlagsAux more flags (arg :: rest)
    | _ => parseSyncFlagsAux more flags (arg :: rest)

/-- Source `parseFlags(args, {once: boolean, follow: boolean,
'idle-exit': string})` as invoked by `runSync`: boolean flags set on
sight, `--idle-exit` takes `=value` or the following argument and throws
when none is available, unknown flags and positionals fall through. -/
def parseSyncFlags (args : List String) : Except String (SyncFlags × List String) :=
  parseSyncFlagsAux args {} []

/-- The mode-relevant configuration `runSync` derives from its flags. -/
structure SyncConfig where
  follow : Bool
  idleExitMs : Option Nat
deriving DecidableEq, Repr

/-- Source `runSync` mode selection: `idleExitMs =
parseDuration(flags['idle-exit'] || '30s')` and `follow = flags.follow
|| !flags.once`; a duration parse failure propagates as the thrown
error. -/
def runSyncConfig (flags : SyncFlags) : Except String SyncConfig :=
  let idleArg :=
    match flags.idleExit with
    | some s => if s = "" then "30s" else s
    | none => "30s"
  match parseDuration (some idleArg) with
  | .error e => .error e
  | .ok ms => .ok { follow := flags.follow || !flags.once, idleExitMs := ms }

/-! ## cli.js: idle-exit polling loop -/

/-- Shape of `messageSyncService.getQueueStats()` as consumed by
`waitForIdle` and `runDoctor`. -/
structure QueueStats where
  pending : Nat
  in_progress : Nat
  idle : Nat
  error : Nat
  processing : Bool
deriving DecidableEq, Repr

/-- The quiescence test of `waitForIdle`:
`!stats.processing && stats.pending + stats.in_progress === 0`. -/
def isQuiescent (s : QueueStats) : Bool :=
  !s.processing && (s.pending + s.in_progress == 0)

/-- Source `waitForIdle(service, idleExitMs)` loop body, discretised: the
`n`-th poll happens at time `500 * n` ms (the `await delay(500)` step),
`stats t` is the queue snapshot the service would report at time `t`,
and `idleStart` is the loop's nullable timer variable.  Returns the time
at which the loop returns, or `none` when the fuel runs out (the source
loop never returns while the queue stays active). -/
def waitForIdleAux (stats : Nat → QueueStats) (idleExitMs : Nat) :
    Nat → Nat → Option Nat → Option Nat
  | 0, _, _ => none
  | fuel + 1, n, idleStart =>
    if isQuiescent (stats (500 * n)) then
      let start := idleStart.getD (500 * n)
      if idleExitMs ≤ 500 * n - start then some (500 * n)
      else waitForIdleAux stats idleExitMs fuel (n + 1) (some start)
    else waitForIdleAux stats idleExitMs fuel (n + 1) none

/-- Source `waitForIdle` entered at time 0 with `idleStart = null`. -/
def waitForIdle (stats : Nat → QueueStats) (idleExitMs fuel : Nat) : Option Nat :=
  waitForIdleAux stats idleExitMs fuel 0 none

/-! ## cli.js: error surfacing and doctor -/

/-- JSON string escaping for the characters `JSON.stringify` must escape
in the error messages at hand. -/
def jsonEscapeChar (c : Char) : List Char :=
  if c = '"' then ['\\', '"'] else if c = '\\' then ['\\', '\\'] else [c]

/-- Escape a message for embedding in a JSON string literal. -/
def jsonEscape (s : String) : String :=
  String.mk ((s.data.map jsonEscapeChar).flatten)

/-- Source `writeError(error, asJson)`: the exact bytes written to
stderr — `JSON.stringify({ok: false, error: message})` plus newline in
JSON mode, the bare message plus newline otherwise. -/
def writeError (message : String) (asJson : Bool) : String :=
  if asJson then "\x7b\"ok\":false,\"error\":\"" ++ jsonEscape message ++ "\"\x7d\n"
  else message ++ "\n"

/-- The lock fields of `runDoctor`'s payload: `lockHeld: lock.exists`
and `lockInfo: lock.info`, derived from a single `readStoreLock` call. -/
structure DoctorLockReport where
  lockHeld : Bool
  lockInfo : Option String
deriving DecidableEq, Repr

/-- Source `runDoctor` restricted to its lock observation (the rest of
the command talks to the external client and the sync service). -/
def runDoctorLock (storeDir : String) (fs : FS) : DoctorLockReport × FS :=
  let r := readStoreLock storeDir fs
  ({ lockHeld := r.1.exists_, lockInfo := r.1.info }, r.2)

/-- The CLI session outcome of a command that begins with
`acquireStoreLock` (e.g. `runSync`): on failure, `main` catches the
error, writes `writeError(error, asJson)` to stderr and calls
`process.exit(1)`; the session is over, no retry happens. -/
def syncLockOutcome (storeDir : String) (pid : Nat) (startedAt : String)
    (asJson : Bool) (fs : FS) : Except (String × Nat) FS :=
  match acquireStoreLock storeDir pid startedAt fs with
  | .ok fs' => .ok fs'
  | .error e => .error (writeError e.message asJson, 1)

/-! ## Filesystem lemmas -/

theorem FS.read_insert_self (fs : FS) (p c : String) :
    (fs.insert p c).read p = some c := by
  simp [FS.read, FS.insert, List.find?]

theorem FS.read_erase_self (fs : FS) (p : String) :
    (fs.erase p).read p = none := by
  have h : List.find? (fun e => decide (e.1 = p))
      (List.filter (fun e => !(decide (e.1 = p))) fs.files) = none := by
    rw [List.find?_eq_none]
    intro x hx
    simp only [List.mem_filter, Bool.not_eq_true', decide_eq_false_iff_not] at hx
    simp [hx.2]
  simp [FS.read, FS.erase, h]

/-! ## C1: acquisition succeeds exactly when no marker exists -/

/-- C1. `acquireStoreLock` fails with the lock-held error exactly when a
marker already exists; with no marker it creates the marker and
succeeds, and of two successive acquisition attempts on the same store
directory the first succeeds and the second fails. -/
theorem acquireStoreLock_mutual_exclusion :
    (∀ storeDir pid t (fs : FS),
      (∃ msg, acquireStoreLock storeDir pid t fs = .error (.lockHeld msg)) ↔
        (fs.read (lockPath storeDir)).isSome = true)
    ∧ (∀ storeDir pid t (fs : FS), fs.read (lockPath storeDir) = none →
        ∃ fs1, acquireStoreLock storeDir pid t fs = .ok fs1 ∧
          fs1.read (lockPath storeDir) = some (lockPayload pid t))
    ∧ (∀ storeDir pid t pid2 t2 (fs fs1 : FS), fs.read (lockPath storeDir) = none →
        acquireStoreLock storeDir pid t fs = .ok fs1 →
        ∃ msg, acquireStoreLock storeDir pid2 t2 fs1 = .error (.lockHeld msg)) := by
  refine ⟨fun storeDir pid t fs => ?_, fun storeDir pid t fs h => ?_,
    fun storeDir pid t pid2 t2 fs fs1 h hok => ?_⟩
  · cases hread : fs.read (lockPath storeDir) with
    | none =>
      simp only [acquireStoreLock, FS.openWxWrite, hread, Option.isSome_none]
      constructor
      · rintro ⟨msg, hmsg⟩
        simp at hmsg
      · intro h
        exact absurd h (by simp)
    | some c =>
      simp only [acquireStoreLock, FS.openWxWrite, hread, Option.isSome_some]
      constructor
      · intro _
        trivial
      · intro _
        exact ⟨_, rfl⟩
  · refine ⟨fs.insert (lockPath storeDir) (lockPayload pid t), ?_, FS.read_insert_self ..⟩
    simp [acquireStoreLock, FS.openWxWrite, h]
  · have h1 : fs1 = fs.insert (lockPath storeDir) (lockPayload pid t) := by
      simp only [acquireStoreLock, FS.openWxWrite, h] at hok
      exact (Except.ok.injEq .. ▸ hok).symm
    have h2 : fs1.read (lockPath storeDir) = some (lockPayload pid t) := by
      rw [h1]; exact FS.read_insert_self ..
    simp [acquireStoreLock, FS.openWxWrite, h2]

/-- C1 witness: on the empty filesystem the first of two acquisition
attempts on the same store directory succeeds and the second fails with
the lock-held error. -/
theorem acquireStoreLock_mutual_exclusion_witness :
    (⟨[]⟩ : FS).read (lockPath "/d") = none ∧
    ∃ fs1, acquireStoreLock "/d" 42 "2024-01-01T00:00:00.000Z" ⟨[]⟩ = .ok fs1 ∧
      ∃ msg, acquireStoreLock "/d" 43 "2024-01-01T00:00:01.000Z" fs1 =
        .error (.lockHeld msg) := by
  have h0 : (⟨[]⟩ : FS).read (lockPath "/d") = none := rfl
  obtain ⟨fs1, hok, -⟩ :=
    acquireStoreLock_mutual_exclusion.2.1 "/d" 42 "2024-01-01T00:00:00.000Z" ⟨[]⟩ h0
  exact ⟨h0, fs1, hok,
    acquireStoreLock_mutual_exclusion.2.2 "/d" 42 "2024-01-01T00:00:00.000Z" 43
      "2024-01-01T00:00:01.000Z" ⟨[]⟩ fs1 h0 hok⟩

/-! ## C2: the release closure is idempotent and total -/

/-- C2. The release closure never fails: a call with the `released` flag
already set is a no-op, a first call always succeeds and sets the flag,
a call with the marker already absent succeeds without touching the
filesystem, and re-running the closure on the state a successful call
produced changes nothing. -/
theorem releaseStoreLock_idempotent :
    ∀ p (fs : FS),
      releaseStoreLock p true fs = .ok (true, fs)
      ∧ (∃ r, releaseStoreLock p false fs = .ok r ∧ r.1 = true)
      ∧ (fs.read p = none → releaseStoreLock p false fs = .ok (true, fs))
      ∧ (∀ r, releaseStoreLock p false fs = .ok r →
          releaseStoreLock p r.1 r.2 = .ok r) := by
  intro p fs
  refine ⟨rfl, ?_, ?_, ?_⟩
  · cases hread : fs.read p with
    | none => exact ⟨(true, fs), by simp [releaseStoreLock, FS.unlinkSync, hread], rfl⟩
    | some c =>
      exact ⟨(true, fs.erase p), by simp [releaseStoreLock, FS.unlinkSync, hread], rfl⟩
  · intro h
    simp [releaseStoreLock, FS.unlinkSync, h]
  · rintro ⟨r1, r2⟩ hr
    cases hread : fs.read p with
    | none =>
      simp only [releaseStoreLock, FS.unlinkSync, hread, Bool.false_eq_true, if_false,
        Except.ok.injEq, Prod.mk.injEq] at hr
      obtain ⟨h1, h2⟩ := hr
      rw [← h1]
      rfl
    | some c =>
      simp only [releaseStoreLock, FS.unlinkSync, hread, Bool.false_eq_true, if_false,
        Except.ok.injEq, Prod.mk.injEq] at hr
      obtain ⟨h1, h2⟩ := hr
      rw [← h1]
      rfl

/-- C2 witness: releasing twice on a one-file store, and releasing when
the marker is absent, both succeed without error. -/
theorem releaseStoreLock_idempotent_witness :
    releaseStoreLock "/d/LOCK" true ⟨[("/d/LOCK", "x")]⟩ =
      .ok (true, ⟨[("/d/LOCK", "x")]⟩)
    ∧ (⟨[]⟩ : FS).read "/d/LOCK" = none
    ∧ releaseStoreLock "/d/LOCK" false ⟨[]⟩ = .ok (true, ⟨[]⟩) :=
  ⟨(releaseStoreLock_idempotent "/d/LOCK" ⟨[("/d/LOCK", "x")]⟩).1, rfl,
    (releaseStoreLock_idempotent "/d/LOCK" ⟨[]⟩).2.2.1 rfl⟩

/-! ## C3: acquire then release restores re-acquirability -/

/-- C3. Starting from a store directory with no marker, acquiring and
then releasing leaves the marker absent, and a subsequent acquisition
succeeds. -/
theorem acquire_release_reacquire :
    ∀ storeDir pid t pid2 t2 (fs : FS), fs.read (lockPath storeDir) = none →
      ∃ fs1 r, acquireStoreLock storeDir pid t fs = .ok fs1
        ∧ releaseStoreLock (lockPath storeDir) false fs1 = .ok r
        ∧ r.2.read (lockPath storeDir) = none
        ∧ ∃ fs2, acquireStoreLock storeDir pid2 t2 r.2 = .ok fs2 := by
  intro storeDir pid t pid2 t2 fs h
  refine ⟨fs.insert (lockPath storeDir) (lockPayload pid t),
    (true, (fs.insert (lockPath storeDir) (lockPayload pid t)).erase (lockPath storeDir)),
    ?_, ?_, ?_, ?_⟩
  · simp [acquireStoreLock, FS.openWxWrite, h]
  · simp [releaseStoreLock, FS.unlinkSync, FS.read_insert_self]
  · exact FS.read_erase_self ..
  · refine ⟨((fs.insert (lockPath storeDir) (lockPayload pid t)).erase
      (lockPath storeDir)).insert (lockPath storeDir) (lockPayload pid2 t2), ?_⟩
    simp [acquireStoreLock, FS.openWxWrite, FS.read_erase_self]

/-- C3 witness: the round trip on the empty filesystem at a concrete
store directory. -/
theorem acquire_release_reacquire_witness :
    (⟨[]⟩ : FS).read (lockPath "/d") = none ∧
    ∃ fs1 r, acquireStoreLock "/d" 1 "t1" ⟨[]⟩ = .ok fs1
      ∧ releaseStoreLock (lockPath "/d") false fs1 = .ok r
      ∧ r.2.read (lockPath "/d") = none
      ∧ ∃ fs2, acquireStoreLock "/d" 2 "t2" r.2 = .ok fs2 :=
  ⟨rfl, acquire_release_reacquire "/d" 1 "t1" 2 "t2" ⟨[]⟩ rfl⟩

/-! ## C8: no staleness detection -/

/-- C8. Acquisition fails with the lock-held error whenever any marker
file exists, no matter what it contains — the contents (and hence the
liveness of the recorded owner) are never consulted, so a stale marker
blocks acquisition until removed externally. -/
theorem acquireStoreLock_no_staleness :
    ∀ storeDir pid t (fs : FS) content, fs.read (lockPath storeDir) = some content →
      ∃ msg, acquireStoreLock storeDir pid t fs = .error (.lockHeld msg) := by
  intro storeDir pid t fs content h
  simp [acquireStoreLock, FS.openWxWrite, h]

/-- C8 witness: a marker recording a long-dead pid (arbitrary stale
contents) still makes acquisition fail. -/
theorem acquireStoreLock_no_staleness_witness :
    ∃ msg, acquireStoreLock "/d" 7 "2024-01-02T00:00:00.000Z"
      ⟨[("/d/LOCK", "\x7b\"pid\":999999,\"startedAt\":\"1999-01-01T00:00:00.000Z\"\x7d")]⟩ =
        .error (.lockHeld msg) :=
  acquireStoreLock_no_staleness "/d" 7 "2024-01-02T00:00:00.000Z"
    ⟨[("/d/LOCK", "\x7b\"pid\":999999,\"startedAt\":\"1999-01-01T00:00:00.000Z\"\x7d")]⟩
    "\x7b\"pid\":999999,\"startedAt\":\"1999-01-01T00:00:00.000Z\"\x7d" (by decide)

/-! ## C6: inspection does not perturb the lock -/

/-- C6. `readStoreLock` and the doctor command's lock report return
whether a marker exists (and the trimmed recorded contents when it
does) while leaving the filesystem exactly as it was, so any later
acquisition attempt sees the same lock state. -/
theorem readStoreLock_doctor_frame :
    ∀ storeDir (fs : FS),
      (readStoreLock storeDir fs).2 = fs
      ∧ (runDoctorLock storeDir fs).2 = fs
      ∧ (runDoctorLock storeDir fs).1 =
          { lockHeld := (readStoreLock storeDir fs).1.exists_,
            lockInfo := (readStoreLock storeDir fs).1.info }
      ∧ (readStoreLock storeDir fs).1.exists_ = (fs.read (lockPath storeDir)).isSome
      ∧ (∀ raw, fs.read (lockPath storeDir) = some raw →
          (readStoreLock storeDir fs).1.info = some (jsTrim raw))
      ∧ (∀ pid t, acquireStoreLock storeDir pid t ((runDoctorLock storeDir fs).2) =
          acquireStoreLock storeDir pid t fs) := by
  intro storeDir fs
  cases hread : fs.read (lockPath storeDir) with
  | none =>
    refine ⟨?_, ?_, ?_, ?_, ?_, ?_⟩ <;>
      simp [readStoreLock, runDoctorLock, FS.readFileSync, hread]
  | some raw =>
    refine ⟨?_, ?_, ?_, ?_, ?_, ?_⟩ <;>
      simp [readStoreLock, runDoctorLock, FS.readFileSync, hread]

/-- C6 witness: inspecting a held lock at a concrete store reports the
marker and leaves the observed acquisition outcome unchanged. -/
theorem readStoreLock_doctor_frame_witness :
    (readStoreLock "/d" ⟨[("/d/LOCK", "pid 9")]⟩).2 = ⟨[("/d/LOCK", "pid 9")]⟩
    ∧ (readStoreLock "/d" ⟨[("/d/LOCK", "pid 9")]⟩).1.info = some (jsTrim "pid 9")
    ∧ acquireStoreLock "/d" 1 "t" ((runDoctorLock "/d" ⟨[("/d/LOCK", "pid 9")]⟩).2) =
        acquireStoreLock "/d" 1 "t" ⟨[("/d/LOCK", "pid 9")]⟩ :=
  ⟨(readStoreLock_doctor_frame "/d" ⟨[("/d/LOCK", "pid 9")]⟩).1,
    (readStoreLock_doctor_frame "/d" ⟨[("/d/LOCK", "pid 9")]⟩).2.2.2.2.1 "pid 9" (by decide),
    (readStoreLock_doctor_frame "/d" ⟨[("/d/LOCK", "pid 9")]⟩).2.2.2.2.2 1 "t"⟩

/-! ## Decimal digit lemmas -/

theorem toNat_ofNat_digit (r : Nat) (h : r < 10) :
    (Char.ofNat (48 + r)).toNat = 48 + r := by
  interval_cases r <;> decide

theorem isDigit_ofNat_digit (r : Nat) (h : r < 10) :
    (Char.ofNat (48 + r)).isDigit = true := by
  interval_cases r <;> decide

theorem decDigitsAux_isDigit :
    ∀ fuel n, ∀ c ∈ decDigitsAux fuel n, c.isDigit = true := by
  intro fuel
  induction fuel with
  | zero => intro n c hc; simp [decDigitsAux] at hc
  | succ fuel ih =>
    intro n c hc
    by_cases hn : n = 0
    · simp [decDigitsAux, hn] at hc
    · simp only [decDigitsAux, if_neg hn, List.mem_append, List.mem_singleton] at hc
      rcases hc with hc | hc
      · exact ih (n / 10) c hc
      · subst hc
        exact isDigit_ofNat_digit (n % 10) (Nat.mod_lt _ (by norm_num))

theorem natToDecChars_isDigit (n : Nat) :
    ∀ c ∈ natToDecChars n, c.isDigit = true := by
  intro c hc
  by_cases hn : n = 0
  · simp [natToDecChars, hn] at hc
    subst hc; decide
  · simp only [natToDecChars, if_neg hn] at hc
    exact decDigitsAux_isDigit n n c hc

theorem digitsToNat_append_digit (ds : List Char) (c : Char) :
    digitsToNat (ds ++ [c]) = digitsToNat ds * 10 + (c.toNat - 48) := by
  simp [digitsToNat, List.foldl_append]

theorem digitsToNat_decDigitsAux :
    ∀ fuel n, n ≤ fuel → digitsToNat (decDigitsAux fuel n) = n := by
  intro fuel
  induction fuel with
  | zero => intro n h; interval_cases n; simp [decDigitsAux, digitsToNat]
  | succ fuel ih =>
    intro n h
    by_cases hn : n = 0
    · simp [decDigitsAux, hn, digitsToNat]
    · rw [decDigitsAux, if_neg hn, digitsToNat_append_digit]
      have hdiv : n / 10 ≤ fuel := by
        have := Nat.div_lt_self (Nat.pos_of_ne_zero hn) (by norm_num : 1 < 10)
        omega
      rw [ih (n / 10) hdiv, toNat_ofNat_digit (n % 10) (Nat.mod_lt _ (by norm_num))]
      omega

theorem digitsToNat_natToDecChars (n : Nat) :
    digitsToNat (natToDecChars n) = n := by
  by_cases hn : n = 0
  · subst hn; decide
  · rw [natToDecChars, if_neg hn]
    exact digitsToNat_decDigitsAux n n le_rfl

/-! ## takeWhile / dropWhile lemmas -/

theorem takeWhile_all_append (p : Char → Bool) :
    ∀ l₁ l₂ : List Char, (∀ c ∈ l₁, p c = true) →
      (l₁ ++ l₂).takeWhile p = l₁ ++ l₂.takeWhile p := by
  intro l₁
  induction l₁ with
  | nil => intro l₂ _; simp
  | cons c l ih =>
    intro l₂ h
    have hc : p c = true := h c (by simp)
    simp only [List.cons_append, List.takeWhile_cons, hc, if_true]
    rw [ih l₂ (fun x hx => h x (by simp [hx]))]

theorem dropWhile_all_append (p : Char → Bool) :
    ∀ l₁ l₂ : List Char, (∀ c ∈ l₁, p c = true) →
      (l₁ ++ l₂).dropWhile p = l₂.dropWhile p := by
  intro l₁
  induction l₁ with
  | nil => intro l₂ _; simp
  | cons c l ih =>
    intro l₂ h
    have hc : p c = true := h c (by simp)
    simp only [List.cons_append, List.dropWhile_cons, hc, if_true]
    exact ih l₂ (fun x hx => h x (by simp [hx]))

theorem takeWhile_cons_false (p : Char → Bool) (c : Char) (l : List Char)
    (h : p c = false) : (c :: l).takeWhile p = [] := by
  simp [List.takeWhile_cons, h]

theorem dropWhile_cons_false (p : Char → Bool) (c : Char) (l : List Char)
    (h : p c = false) : (c :: l).dropWhile p = c :: l := by
  simp [List.dropWhile_cons, h]

/-! ## Lock payload structure -/

theorem lockPayload_data (pid : Nat) (t : String) :
    (lockPayload pid t).data =
      Char.ofNat 123 :: '"' :: 'p' :: 'i' :: 'd' :: '"' :: ':' ::
        (natToDecChars pid ++
          (',' :: '"' :: 's' :: 't' :: 'a' :: 'r' :: 't' :: 'e' :: 'd' :: 'A' ::
            't' :: '"' :: ':' :: '"' :: (t.data ++ ['"', Char.ofNat 125]))) := by
  have h1 : "\x7b\"pid\":".data =
      Char.ofNat 123 :: '"' :: 'p' :: 'i' :: 'd' :: '"' :: ':' :: [] := by decide
  have h2 : ",\"startedAt\":\"".data =
      ',' :: '"' :: 's' :: 't' :: 'a' :: 'r' :: 't' :: 'e' :: 'd' :: 'A' :: 't' ::
        '"' :: ':' :: '"' :: [] := by decide
  have h3 : "\"\x7d".data = ['"', Char.ofNat 125] := by decide
  simp [lockPayload, String.data_append, h1, h2, h3]

theorem trimChars_of_ends (cs : List Char) (a b : Char) (L : List Char)
    (hcs : cs = a :: (L ++ [b])) (ha : a.isWhitespace = false)
    (hb : b.isWhitespace = false) : trimChars cs = cs := by
  subst hcs
  unfold trimChars
  rw [dropWhile_cons_false _ _ _ ha]
  have hrev : (a :: (L ++ [b])).reverse = b :: (L.reverse ++ [a]) := by simp
  rw [hrev, dropWhile_cons_false _ _ _ hb, ← hrev, List.reverse_reverse]

theorem jsTrim_lockPayload (pid : Nat) (t : String) :
    jsTrim (lockPayload pid t) = lockPayload pid t := by
  have hshape : (lockPayload pid t).data =
      Char.ofNat 123 ::
        (('"' :: 'p' :: 'i' :: 'd' :: '"' :: ':' ::
          (natToDecChars pid ++
            (',' :: '"' :: 's' :: 't' :: 'a' :: 'r' :: 't' :: 'e' :: 'd' :: 'A' ::
              't' :: '"' :: ':' :: '"' :: (t.data ++ ['"'])))) ++ [Char.ofNat 125]) := by
    rw [lockPayload_data]; simp
  show String.mk (trimChars (lockPayload pid t).data) = lockPayload pid t
  rw [trimChars_of_ends _ _ _ _ hshape (by decide) (by decide)]

theorem lockRecordPid_lockPayload (pid : Nat) (t : String) :
    lockRecordPid (lockPayload pid t) = pid := by
  unfold lockRecordPid
  rw [lockPayload_data]
  have hd : List.drop 7
      (Char.ofNat 123 :: '"' :: 'p' :: 'i' :: 'd' :: '"' :: ':' ::
        (natToDecChars pid ++
          (',' :: '"' :: 's' :: 't' :: 'a' :: 'r' :: 't' :: 'e' :: 'd' :: 'A' ::
            't' :: '"' :: ':' :: '"' :: (t.data ++ ['"', Char.ofNat 125])))) =
      natToDecChars pid ++
        (',' :: '"' :: 's' :: 't' :: 'a' :: 'r' :: 't' :: 'e' :: 'd' :: 'A' ::
          't' :: '"' :: ':' :: '"' :: (t.data ++ ['"', Char.ofNat 125])) := rfl
  rw [hd, takeWhile_all_append Char.isDigit _ _ (natToDecChars_isDigit pid),
    takeWhile_cons_false _ _ _ (by decide), List.append_nil]
  exact digitsToNat_natToDecChars pid

theorem lockRecordStartedAt_lockPayload (pid : Nat) (t : String)
    (ht : ∀ c ∈ t.data, c ≠ '"') :
    lockRecordStartedAt (lockPayload pid t) = t := by
  unfold lockRecordStartedAt
  rw [lockPayload_data]
  have hd : List.drop 7
      (Char.ofNat 123 :: '"' :: 'p' :: 'i' :: 'd' :: '"' :: ':' ::
        (natToDecChars pid ++
          (',' :: '"' :: 's' :: 't' :: 'a' :: 'r' :: 't' :: 'e' :: 'd' :: 'A' ::
            't' :: '"' :: ':' :: '"' :: (t.data ++ ['"', Char.ofNat 125])))) =
      natToDecChars pid ++
        (',' :: '"' :: 's' :: 't' :: 'a' :: 'r' :: 't' :: 'e' :: 'd' :: 'A' ::
          't' :: '"' :: ':' :: '"' :: (t.data ++ ['"', Char.ofNat 125])) := rfl
  rw [hd, dropWhile_all_append Char.isDigit _ _ (natToDecChars_isDigit pid),
    dropWhile_cons_false _ _ _ (by decide)]
  have hd14 : List.drop 14
      (',' :: '"' :: 's' :: 't' :: 'a' :: 'r' :: 't' :: 'e' :: 'd' :: 'A' ::
        't' :: '"' :: ':' :: '"' :: (t.data ++ ['"', Char.ofNat 125])) =
      t.data ++ ['"', Char.ofNat 125] := rfl
  rw [hd14, takeWhile_all_append _ _ _ (fun c hc => by simp [ht c hc]),
    takeWhile_cons_false _ _ _ (by decide), List.append_nil]

/-! ## C7: the marker records the owner pid and acquisition time -/

/-- C7. A successful acquisition writes a marker whose contents are the
JSON payload of the acquiring pid and timestamp: decoding the stored
marker recovers exactly that pid and timestamp, and `readStoreLock`
reports the payload verbatim (trimming is the identity on it). -/
theorem acquireStoreLock_records_owner :
    ∀ storeDir pid t (fs : FS), fs.read (lockPath storeDir) = none →
      (∀ c ∈ t.data, c ≠ '"') →
      ∃ fs1, acquireStoreLock storeDir pid t fs = .ok fs1
        ∧ fs1.read (lockPath storeDir) = some (lockPayload pid t)
        ∧ lockRecordPid (lockPayload pid t) = pid
        ∧ lockRecordStartedAt (lockPayload pid t) = t
        ∧ (readStoreLock storeDir fs1).1.exists_ = true
        ∧ (readStoreLock storeDir fs1).1.info = some (lockPayload pid t) := by
  intro storeDir pid t fs h ht
  refine ⟨fs.insert (lockPath storeDir) (lockPayload pid t), ?_, FS.read_insert_self ..,
    lockRecordPid_lockPayload pid t, lockRecordStartedAt_lockPayload pid t ht, ?_, ?_⟩
  · simp [acquireStoreLock, FS.openWxWrite, h]
  · simp [readStoreLock, FS.readFileSync, FS.read_insert_self]
  · simp [readStoreLock, FS.readFileSync, FS.read_insert_self, jsTrim_lockPayload]

/-- C7 witness: a concrete acquisition on the empty filesystem stores a
marker that decodes back to the acquiring pid and timestamp. -/
theorem acquireStoreLock_records_owner_witness :
    ∃ fs1, acquireStoreLock "/d" 4321 "2024-05-06T07:08:09.123Z" ⟨[]⟩ = .ok fs1
      ∧ fs1.read (lockPath "/d") = some (lockPayload 4321 "2024-05-06T07:08:09.123Z")
      ∧ lockRecordPid (lockPayload 4321 "2024-05-06T07:08:09.123Z") = 4321
      ∧ lockRecordStartedAt (lockPayload 4321 "2024-05-06T07:08:09.123Z") =
          "2024-05-06T07:08:09.123Z"
      ∧ (readStoreLock "/d" fs1).1.exists_ = true
      ∧ (readStoreLock "/d" fs1).1.info =
          some (lockPayload 4321 "2024-05-06T07:08:09.123Z") :=
  acquireStoreLock_records_owner "/d" 4321 "2024-05-06T07:08:09.123Z" ⟨[]⟩ rfl
    (by decide)

/-! ## Character classification lemmas -/

theorem digit_toLower (c : Char) (h : c.isDigit = true) : c.toLower = c := by
  simp [Char.isDigit] at h
  obtain ⟨h1, h2⟩ := h
  simp [Char.toLower]
  intro h3 h4
  exfalso
  have hle : c.toNat ≤ 57 := by simpa [Char.le_def] using h2
  omega

theorem digit_not_whitespace (c : Char) (h : c.isDigit = true) :
    c.isWhitespace = false := by
  simp [Char.isDigit] at h
  obtain ⟨h1, h2⟩ := h
  simp only [Char.isWhitespace, Bool.or_eq_false_iff, decide_eq_false_iff_not]
  refine ⟨⟨⟨?_, ?_⟩, ?_⟩, ?_⟩ <;> (rintro rfl; revert h1 h2; decide)

theorem mem_takeWhile_pred (p : Char → Bool) :
    ∀ (l : List Char) c, c ∈ l.takeWhile p → p c = true := by
  intro l
  induction l with
  | nil => intro c hc; simp at hc
  | cons a l ih =>
    intro c hc
    cases hp : p a with
    | true =>
      rw [List.takeWhile_cons, if_pos hp] at hc
      rcases List.mem_cons.1 hc with hc | hc
      · subst hc; exact hp
      · exact ih c hc
    | false =>
      rw [List.takeWhile_cons, if_neg (by simp [hp])] at hc
      simp at hc

theorem dropWhile_eq_self_of_all (p : Char → Bool) (l : List Char)
    (h : ∀ c ∈ l, p c = false) : l.dropWhile p = l := by
  cases l with
  | nil => rfl
  | cons a l => exact dropWhile_cons_false p a l (h a (by simp))

theorem trimChars_of_forall (cs : List Char)
    (h : ∀ c ∈ cs, c.isWhitespace = false) : trimChars cs = cs := by
  unfold trimChars
  rw [dropWhile_eq_self_of_all _ _ h,
    dropWhile_eq_self_of_all _ _ (fun c hc => h c (List.mem_reverse.1 hc)),
    List.reverse_reverse]

theorem natToDecChars_ne_nil (n : Nat) : natToDecChars n ≠ [] := by
  by_cases hn : n = 0
  · simp [natToDecChars, hn]
  · obtain ⟨m, rfl⟩ := Nat.exists_eq_succ_of_ne_zero hn
    simp [natToDecChars, decDigitsAux]

/-! ## parseDuration helper lemmas -/


theorem takeWhile_eq_self_of_all (p : Char → Bool) :
    ∀ l : List Char, (∀ c ∈ l, p c = true) → l.takeWhile p = l := by
  intro l
  induction l with
  | nil => intro _; rfl
  | cons a l ih =>
    intro h
    rw [List.takeWhile_cons, if_pos (h a (by simp)),
      ih (fun c hc => h c (by simp [hc]))]

theorem dropWhile_eq_nil_of_all (p : Char → Bool) :
    ∀ l : List Char, (∀ c ∈ l, p c = true) → l.dropWhile p = [] := by
  intro l
  induction l with
  | nil => intro _; rfl
  | cons a l ih =>
    intro h
    rw [List.dropWhile_cons, if_pos (h a (by simp))]
    exact ih (fun c hc => h c (by simp [hc]))

theorem head_not_digit_of_suffix (us : List Char) (k : Nat) (h : suffixSpec us k) :
    ∀ c t, us = c :: t → c.isDigit = false := by
  intro c t hus
  subst hus
  by_contra hd
  rw [Bool.not_eq_false] at hd
  have hlow := digit_toLower c hd
  rcases h with ⟨h, -⟩ | ⟨h, -⟩ | ⟨h, -⟩ | ⟨h, -⟩ | ⟨h, -⟩ <;>
    simp only [List.map_cons, hlow] at h
  · exact List.cons_ne_nil c _ h
  · injection h with h1 h2
    rw [h1] at hd
    exact absurd hd (by decide)
  · injection h with h1 h2
    rw [h1] at hd
    exact absurd hd (by decide)
  · injection h with h1 h2
    rw [h1] at hd
    exact absurd hd (by decide)
  · injection h with h1 h2
    rw [h1] at hd
    exact absurd hd (by decide)

theorem take_drop_split (ds us : List Char) (hdig : ∀ c ∈ ds, c.isDigit = true)
    (hhead : ∀ c t, us = c :: t → c.isDigit = false) :
    (ds ++ us).takeWhile Char.isDigit = ds ∧
      (ds ++ us).dropWhile Char.isDigit = us := by
  rcases us with - | ⟨c, t⟩
  · constructor
    · rw [List.append_nil, takeWhile_eq_self_of_all _ ds hdig]
    · rw [List.append_nil, dropWhile_eq_nil_of_all _ ds hdig]
  · constructor
    · rw [takeWhile_all_append _ _ _ hdig,
        takeWhile_cons_false _ _ _ (hhead c t rfl), List.append_nil]
    · rw [dropWhile_all_append _ _ _ hdig,
        dropWhile_cons_false _ _ _ (hhead c t rfl)]

theorem parseDuration_valid (v : String) (ds us : List Char) (k : Nat)
    (htrim : trimChars v.data = ds ++ us)
    (hds : ds ≠ []) (hdig : ∀ c ∈ ds, c.isDigit = true)
    (hk : suffixSpec us k) :
    parseDuration (some v) = .ok (some (digitsToNat ds * k)) := by
  have hne : trimChars v.data ≠ [] := by
    rw [htrim]
    intro h
    rw [List.append_eq_nil] at h
    exact hds h.1
  obtain ⟨htake, hdrop⟩ :=
    take_drop_split ds us hdig (head_not_digit_of_suffix us k hk)
  simp only [parseDuration]
  rw [if_neg hne, htrim, htake, hdrop, if_neg hds]
  rcases hk with ⟨h, rfl⟩ | ⟨h, rfl⟩ | ⟨h, rfl⟩ | ⟨h, rfl⟩ | ⟨h, rfl⟩ <;>
    rw [h] <;> simp [Nat.mul_assoc]

theorem parseDuration_invalid (v : String)
    (hne : trimChars v.data ≠ [])
    (hnv : ¬ isValidDuration (trimChars v.data)) :
    parseDuration (some v) = .error ("Invalid duration: " ++ v) := by
  simp only [parseDuration]
  rw [if_neg hne]
  by_cases hds : (trimChars v.data).takeWhile Char.isDigit = []
  · rw [if_pos hds]
  · rw [if_neg hds]
    have hsplit : trimChars v.data =
        (trimChars v.data).takeWhile Char.isDigit ++
          (trimChars v.data).dropWhile Char.isDigit := by
      rw [List.takeWhile_append_dropWhile]
    have hdig : ∀ c ∈ (trimChars v.data).takeWhile Char.isDigit, c.isDigit = true :=
      fun c hc => mem_takeWhile_pred _ _ c hc
    have hnu : ∀ l ∈ durationSuffixes,
        ((trimChars v.data).dropWhile Char.isDigit).map Char.toLower ≠ l := by
      intro l hl heq
      exact hnv ⟨_, _, hsplit, hds, hdig, by rw [heq]; exact hl⟩
    rw [if_neg (hnu [] (by simp [durationSuffixes]))]
    rw [if_neg (hnu ['m', 's'] (by simp [durationSuffixes])),
      if_neg (hnu ['s'] (by simp [durationSuffixes])),
      if_neg (hnu ['m'] (by simp [durationSuffixes])),
      if_neg (hnu ['h'] (by simp [durationSuffixes]))]

/-! ## C9: parseDuration is total over its grammar -/

/-- C9. `parseDuration` returns the duration in milliseconds for every
trimmed input consisting of a digit run followed by an optional
case-insensitive unit suffix (a missing suffix meaning seconds), throws
`Invalid duration` for every other non-blank string, returns `null` for
a blank or missing value, and in particular maps every bare decimal
numeral `n` to `n * 1000`. -/
theorem parseDuration_spec :
    (∀ (v : String) (ds us : List Char) (k : Nat),
        trimChars v.data = ds ++ us → ds ≠ [] → (∀ c ∈ ds, c.isDigit = true) →
        suffixSpec us k →
        parseDuration (some v) = .ok (some (digitsToNat ds * k)))
    ∧ (∀ v : String, trimChars v.data ≠ [] → ¬ isValidDuration (trimChars v.data) →
        parseDuration (some v) = .error ("Invalid duration: " ++ v))
    ∧ (∀ v : String, trimChars v.data = [] → parseDuration (some v) = .ok none)
    ∧ parseDuration none = .ok none
    ∧ (∀ n : Nat, parseDuration (some (String.mk (natToDecChars n))) =
        .ok (some (n * 1000))) := by
  refine ⟨parseDuration_valid, parseDuration_invalid,
    fun v h => by simp [parseDuration, h], rfl, fun n => ?_⟩
  have hws : ∀ c ∈ natToDecChars n, c.isWhitespace = false :=
    fun c hc => digit_not_whitespace c (natToDecChars_isDigit n c hc)
  have htrim : trimChars (String.mk (natToDecChars n)).data = natToDecChars n ++ [] := by
    rw [List.append_nil]
    exact trimChars_of_forall _ hws
  have h := parseDuration_valid (String.mk (natToDecChars n)) (natToDecChars n) [] 1000
    htrim (natToDecChars_ne_nil n) (natToDecChars_isDigit n) (Or.inl ⟨rfl, rfl⟩)
  rwa [digitsToNat_natToDecChars] at h

/-- C9 witness: a padded upper-case minutes value parses, a malformed
value throws, blank parses to `null`, and a bare numeral means
seconds. -/
theorem parseDuration_spec_witness :
    parseDuration (some " 45M ") = .ok (some (digitsToNat ['4', '5'] * 60000))
    ∧ parseDuration (some "5x") = .error ("Invalid duration: " ++ "5x")
    ∧ parseDuration (some "  ") = .ok none
    ∧ parseDuration (some (String.mk (natToDecChars 30))) = .ok (some (30 * 1000)) := by
  refine ⟨?_, ?_, ?_, ?_⟩
  · exact parseDuration_spec.1 " 45M " ['4', '5'] ['M'] 60000 (by decide) (by decide)
      (by decide) (Or.inr (Or.inr (Or.inr (Or.inl ⟨by decide, rfl⟩))))
  · refine parseDuration_spec.2.1 "5x" (by decide) ?_
    have ht : trimChars "5x".data = ['5', 'x'] := by decide
    rw [ht]
    rintro ⟨ds, us, heq, hds, hdig, hsuf⟩
    rcases ds with - | ⟨a, ds'⟩
    · exact hds rfl
    · injection heq with h1 h2
      rcases ds' with - | ⟨b, ds''⟩
      · have h2' : us = ['x'] := by simpa [List.append_eq] using h2.symm
        subst h2'
        exact absurd hsuf (by decide)
      · injection h2 with h3 h4
        have := hdig b (by simp)
        rw [← h3] at this
        exact absurd this (by decide)
  · exact parseDuration_spec.2.2.1 "  " (by decide)
  · exact parseDuration_spec.2.2.2.2 30

/-! ## C10: sync mode selection and idle-exit default -/

/-- C10. `runSync` selects bounded once-mode exactly when `--once` is set
and `--follow` is not (`follow = flags.follow || !flags.once`, so
`--follow` wins and no flags at all means follow mode), and the
idle-exit window defaults to 30 seconds when `--idle-exit` is absent. -/
theorem runSync_mode_selection :
    (∀ (flags : SyncFlags) (cfg : SyncConfig), runSyncConfig flags = .ok cfg →
        (cfg.follow = false ↔ (flags.once = true ∧ flags.follow = false)))
    ∧ parseSyncFlags [] = .ok ({ once := false, follow := false, idleExit := none }, [])
    ∧ parseSyncFlags ["--once"] =
        .ok ({ once := true, follow := false, idleExit := none }, [])
    ∧ parseSyncFlags ["--once", "--follow"] =
        .ok ({ once := true, follow := true, idleExit := none }, [])
    ∧ runSyncConfig { once := false, follow := false, idleExit := none } =
        .ok { follow := true, idleExitMs := some 30000 }
    ∧ runSyncConfig { once := true, follow := false, idleExit := none } =
        .ok { follow := false, idleExitMs := some 30000 }
    ∧ runSyncConfig { once := true, follow := true, idleExit := none } =
        .ok { follow := true, idleExitMs := some 30000 } := by
  refine ⟨?_, rfl, rfl, rfl, rfl, rfl, rfl⟩
  rintro ⟨o, f, ie⟩ cfg h
  rcases ie with - | s
  · simp only [runSyncConfig] at h
    rw [show parseDuration (some "30s") = Except.ok (some 30000) from rfl] at h
    simp only [Except.ok.injEq] at h
    subst h
    cases o <;> cases f <;> simp
  · simp only [runSyncConfig] at h
    cases hps : parseDuration (some (if s = "" then "30s" else s)) with
    | error e => rw [hps] at h; simp at h
    | ok ms =>
      rw [hps] at h
      simp only [Except.ok.injEq] at h
      subst h
      cases o <;> cases f <;> simp

/-- C10 witness: with `--once` alone the derived configuration is
once-mode with the 30-second default window. -/
theorem runSync_mode_selection_witness :
    ({ follow := false, idleExitMs := some 30000 } : SyncConfig).follow = false ↔
      (true = true ∧ false = false) :=
  runSync_mode_selection.1 { once := true, follow := false, idleExit := none }
    { follow := false, idleExitMs := some 30000 } rfl

/-! ## waitForIdle lemmas -/

theorem waitForIdleAux_busy_step (stats : Nat → QueueStats) (w fuel n : Nat)
    (st : Option Nat) (h : isQuiescent (stats (500 * n)) = false) :
    waitForIdleAux stats w (fuel + 1) n st = waitForIdleAux stats w fuel (n + 1) none := by
  simp [waitForIdleAux, h]

theorem waitForIdleAux_busy_skip (stats : Nat → QueueStats) (w : Nat) :
    ∀ j fuel n, (∀ k, n ≤ k → k < n + j → isQuiescent (stats (500 * k)) = false) →
      waitForIdleAux stats w (j + fuel) n none =
        waitForIdleAux stats w fuel (n + j) none := by
  intro j
  induction j with
  | zero => intro fuel n _; simp
  | succ j ih =>
    intro fuel n h
    have h0 : isQuiescent (stats (500 * n)) = false := h n le_rfl (by omega)
    rw [show j + 1 + fuel = (j + fuel) + 1 from by omega,
      waitForIdleAux_busy_step stats w (j + fuel) n none h0,
      ih fuel (n + 1) (fun k hk1 hk2 => h k (by omega) (by omega)),
      show n + 1 + j = n + (j + 1) from by omega]

theorem waitForIdleAux_quiet_entry (stats : Nat → QueueStats) (w fuel n : Nat)
    (h : isQuiescent (stats (500 * n)) = true) :
    waitForIdleAux stats w (fuel + 1) n none =
      waitForIdleAux stats w (fuel + 1) n (some (500 * n)) := by
  simp [waitForIdleAux, h]

theorem waitForIdleAux_quiet_run (stats : Nat → QueueStats) (w K : Nat)
    (hq : ∀ k, K ≤ k → isQuiescent (stats (500 * k)) = true) :
    ∀ d j fuel, j + d = (w + 499) / 500 → d < fuel →
      waitForIdleAux stats w fuel (K + j) (some (500 * K)) =
        some (500 * (K + (w + 499) / 500)) := by
  intro d
  induction d with
  | zero =>
    intro j fuel hj hf
    obtain ⟨f1, rfl⟩ : ∃ f1, fuel = f1 + 1 := ⟨fuel - 1, by omega⟩
    have hqk := hq (K + j) (by omega)
    have hcond : w ≤ 500 * (K + j) - 500 * K := by omega
    have hj0 : j = (w + 499) / 500 := by omega
    subst hj0
    simp only [waitForIdleAux, hqk, if_true, Option.getD_some, if_pos hcond]
  | succ d ih =>
    intro j fuel hj hf
    obtain ⟨f1, rfl⟩ : ∃ f1, fuel = f1 + 1 := ⟨fuel - 1, by omega⟩
    have hqk := hq (K + j) (by omega)
    have hcond : ¬ (w ≤ 500 * (K + j) - 500 * K) := by omega
    simp only [waitForIdleAux, hqk, if_true, Option.getD_some, if_neg hcond]
    exact ih (j + 1) f1 (by omega) (by omega)

theorem waitForIdle_main (stats : Nat → QueueStats) (w K fuel : Nat)
    (hb : ∀ k, k < K → isQuiescent (stats (500 * k)) = false)
    (hq : ∀ k, K ≤ k → isQuiescent (stats (500 * k)) = true)
    (hfuel : K + (w + 499) / 500 + 1 ≤ fuel) :
    waitForIdle stats w fuel = some (500 * (K + (w + 499) / 500)) := by
  unfold waitForIdle
  obtain ⟨f1, rfl⟩ : ∃ f1, fuel = K + f1 := ⟨fuel - K, by omega⟩
  rw [waitForIdleAux_busy_skip stats w K f1 0 (fun k _ h2 => hb k (by omega))]
  simp only [Nat.zero_add]
  obtain ⟨f2, rfl⟩ : ∃ f2, f1 = f2 + 1 := ⟨f1 - 1, by omega⟩
  rw [waitForIdleAux_quiet_entry stats w f2 K (hq K le_rfl)]
  exact waitForIdleAux_quiet_run stats w K hq ((w + 499) / 500) 0 (f2 + 1)
    (by omega) (by omega)

/-! ## C5: idle-exit returns after sustained quiescence, within a poll -/

/-- C5. The idle-exit loop: any active observation resets the timer to
null; when every poll before index `K` sees activity and every poll
from `K` on sees quiescence, the loop returns exactly at time
`500K + 500⌈w/500⌉`; and for a window of 2000 ms, if quiescence is
reached at time `T` (activity before, quiescence from then on), the
loop returns at a time between `T + 2000` and `T + 2500`. -/
theorem waitForIdle_spec :
    (∀ (stats : Nat → QueueStats) (w fuel n : Nat) (st : Option Nat),
        isQuiescent (stats (500 * n)) = false →
        waitForIdleAux stats w (fuel + 1) n st =
          waitForIdleAux stats w fuel (n + 1) none)
    ∧ (∀ (stats : Nat → QueueStats) (w K fuel : Nat),
        (∀ k, k < K → isQuiescent (stats (500 * k)) = false) →
        (∀ k, K ≤ k → isQuiescent (stats (500 * k)) = true) →
        K + (w + 499) / 500 + 1 ≤ fuel →
        waitForIdle stats w fuel = some (500 * K + 500 * ((w + 499) / 500)))
    ∧ (∀ (stats : Nat → QueueStats) (T fuel : Nat),
        (∀ t, T ≤ t → isQuiescent (stats t) = true) →
        (∀ t, t < T → isQuiescent (stats t) = false) →
        (T + 499) / 500 + 5 ≤ fuel →
        ∃ r, waitForIdle stats 2000 fuel = some r ∧ T + 2000 ≤ r ∧ r ≤ T + 2500) := by
  refine ⟨waitForIdleAux_busy_step, fun stats w K fuel hb hq hf => ?_, ?_⟩
  · have h := waitForIdle_main stats w K fuel hb hq hf
    rwa [Nat.mul_add] at h
  · intro stats T fuel hq hb hfuel
    set K := (T + 499) / 500 with hK
    have hb' : ∀ k, k < K → isQuiescent (stats (500 * k)) = false := by
      intro k hk
      apply hb
      omega
    have hq' : ∀ k, K ≤ k → isQuiescent (stats (500 * k)) = true := by
      intro k hk
      apply hq
      omega
    have h := waitForIdle_main stats 2000 K fuel hb' hq' (by omega)
    refine ⟨500 * (K + (2000 + 499) / 500), h, by omega, by omega⟩

/-- A concrete service trace for the C5 witness: busy until 700 ms, then
permanently quiescent. -/
def demoStats : Nat → QueueStats := fun t =>
  if t < 700 then
    { pending := 1, in_progress := 0, idle := 0, error := 0, processing := true }
  else
    { pending := 0, in_progress := 0, idle := 0, error := 0, processing := false }

/-- C5 witness: on `demoStats` (quiescent from 700 ms on) the loop with a
2000 ms window returns between 2700 ms and 3200 ms. -/
theorem waitForIdle_spec_witness :
    ∃ r, waitForIdle demoStats 2000 10 = some r ∧ 700 + 2000 ≤ r ∧ r ≤ 700 + 2500 := by
  apply waitForIdle_spec.2.2 demoStats 700 10
  · intro t ht
    have h : ¬ t < 700 := by omega
    simp [demoStats, h, isQuiescent]
  · intro t ht
    simp [demoStats, ht, isQuiescent]
  · norm_num

/-! ## C4: what the CLI surfaces when the lock is held -/

/-- C4 (amended): on a held lock the CLI session fails terminally — the
thrown error's message, `Store is locked by another process` plus the
marker details, is written to stderr via `writeError` and the process
exits with code 1, with no retry; the error carries only that message,
not the taxonomy name. -/
theorem cli_lock_error_propagation :
    ∀ storeDir pid t (fs : FS) content asJson,
      fs.read (lockPath storeDir) = some content →
      ∃ msg, acquireStoreLock storeDir pid t fs = .error (.lockHeld msg)
        ∧ syncLockOutcome storeDir pid t asJson fs = .error (writeError msg asJson, 1)
        ∧ ∃ d, msg = "Store is locked by another process" ++ d := by
  intro storeDir pid t fs content asJson h
  refine ⟨"Store is locked by another process" ++
      (match (readStoreLock storeDir fs).1.info with
       | some s => if s = "" then "" else " (" ++ s ++ ")"
       | none => ""), ?_, ?_, ⟨_, rfl⟩⟩
  · simp [acquireStoreLock, FS.openWxWrite, h]
  · simp [syncLockOutcome, acquireStoreLock, FS.openWxWrite, h, LockError.message]

/-- C4 witness: a concrete held lock is surfaced as the lock-held message
through `writeError` with exit code 1. -/
theorem cli_lock_error_propagation_witness :
    ∃ msg, acquireStoreLock "/d" 5 "t" ⟨[("/d/LOCK", "owner 1")]⟩ =
        .error (.lockHeld msg)
      ∧ syncLockOutcome "/d" 5 "t" true ⟨[("/d/LOCK", "owner 1")]⟩ =
          .error (writeError msg true, 1)
      ∧ ∃ d, msg = "Store is locked by another process" ++ d :=
  cli_lock_error_propagation "/d" 5 "t" ⟨[("/d/LOCK", "owner 1")]⟩ "owner 1" true
    (by decide)

/-- C4 counterexample: at a concrete held lock, the exact bytes the CLI
writes to stderr are the lock-held message — the string `LockHeldError`
appears nowhere in them, so the surfaced error does not identify the
failure by the taxonomy name. -/
theorem cli_lock_error_no_taxonomy_name :
    syncLockOutcome "/d" 1 "2024-01-01T00:00:00.000Z" false
        ⟨[("/d/LOCK", "pid 42")]⟩ =
      .error ("Store is locked by another process (pid 42)\n", 1)
    ∧ ¬ ("LockHeldError".data <:+:
        ("Store is locked by another process (pid 42)\n").data) := by
  constructor
  · rfl
  · decide
